import Mathlib

/-!
Verification of the adaptive streaming anomaly detector of
`src/app.py` (class `AdaptiveAnomalyDetector`).

The detector keeps a `collections.deque` of recent values with
`maxlen = window_size`.  `is_anomaly(value)` appends the value and, once
the window is full, compares `abs(value - avg)` against
`sensitivity * std_dev`, where `avg`/`std_dev` are `np.mean`/`np.std`
(population standard deviation) of the window *after* the append
performed by `update_window`.

The embedding works in exact rational arithmetic.  `np.std` returns the
square root of the population variance, which is irrational in general,
so the decision `abs(value - avg) > sensitivity * sqrt(variance)` is
embedded as the equivalent squared comparison
`(value - avg)^2 > sensitivity^2 * variance`; the equivalence (for a
nonnegative sensitivity, which every claim about classification assumes)
is proved over the reals in `abs_gt_mul_sqrt_iff` below.
-/

namespace AnomalyDetection

/-- Last `w` elements of a list (the rest dropped from the front). -/
def takeLast {α : Type} (w : ℕ) (l : List α) : List α :=
  l.drop (l.length - w)

/-- Appending to a `collections.deque` with `maxlen = w`: the new value goes
to the right and, if the deque was full, the leftmost (oldest) element is
evicted.  For a buffer of length at most `w` this is exactly
"append, then keep the last `w` elements". -/
def dequeAppend {α : Type} (w : ℕ) (xs : List α) (v : α) : List α :=
  takeLast w (xs ++ [v])

/-- Population mean, `np.mean`: sum divided by length. -/
def mean (l : List ℚ) : ℚ := l.sum / l.length

/-- Population variance, the square of `np.std`: mean of the squared
deviations from the mean. -/
def variance (l : List ℚ) : ℚ :=
  (l.map (fun x => (x - mean l) ^ 2)).sum / l.length

/-- State of `AdaptiveAnomalyDetector`: the two constructor parameters and
the deque `self.values` (oldest first). -/
structure DetectorState where
  window_size : ℕ
  sensitivity : ℚ
  values : List ℚ
deriving Repr, DecidableEq

/-- A detector as `__init__` leaves it for a nonnegative window size:
parameters stored unvalidated, empty window. -/
def init (w : ℕ) (s : ℚ) : DetectorState :=
  { window_size := w, sensitivity := s, values := [] }

/-- Embeds `AdaptiveAnomalyDetector.__init__` (src/app.py lines 42-45).
The constructor stores `window_size` and `sensitivity` without any
validation and creates `deque(maxlen=window_size)`.  CPython's `deque`
raises `ValueError` for a negative `maxlen`, modelled as `none`; no other
argument is rejected.  There is no `InvalidConfiguration` anywhere in the
code. -/
def initDetector (window_size : ℤ) (sensitivity : ℚ) : Option DetectorState :=
  if window_size < 0 then none
  else some { window_size := window_size.toNat, sensitivity := sensitivity, values := [] }

/-- Embeds `AdaptiveAnomalyDetector.update_window` (src/app.py lines 47-52):
append `value` to the deque, then return the mean and the deviation of the
*new* window contents, together with the mutated state.  The source returns
`(avg, std_dev)`; here the variance (the square of `std_dev`) is carried, see
the file comment. -/
def update_window (d : DetectorState) (value : ℚ) : ℚ × ℚ × DetectorState :=
  let values' := dequeAppend d.window_size d.values value
  (mean values', variance values', { d with values := values' })

/-- Embeds `AdaptiveAnomalyDetector.is_anomaly` (src/app.py lines 54-62).
Below capacity: append and return `False`.  At capacity: call
`update_window` (which appends first), then compare the deviation of
`value` from the post-append mean against `sensitivity * std_dev`, in
squared form. -/
def is_anomaly (d : DetectorState) (value : ℚ) : Bool × DetectorState :=
  if d.values.length < d.window_size then
    (false, { d with values := dequeAppend d.window_size d.values value })
  else
    let r := update_window d value
    (decide ((value - r.1) ^ 2 > d.sensitivity ^ 2 * r.2.1), r.2.2)

/-- The state after one `is_anomaly` call. -/
def stepState (d : DetectorState) (v : ℚ) : DetectorState :=
  (is_anomaly d v).2

/-- The state after a sequence of `is_anomaly` calls. -/
def feedAll (d : DetectorState) (l : List ℚ) : DetectorState :=
  l.foldl stepState d

/-- The list of results of a sequence of `is_anomaly` calls. -/
def runOutputs (d : DetectorState) : List ℚ → List Bool
  | [] => []
  | v :: vs => (is_anomaly d v).1 :: runOutputs (is_anomaly d v).2 vs

/-- Follows the spec's words (§4.1, steps 2-5), for comparison with the
code: when the window is full, the mean and the variance are computed over
the window contents BEFORE the new value is inserted, the decision is taken
against those statistics, and only then is the value inserted. -/
def classifySpecPre (d : DetectorState) (value : ℚ) : Bool × DetectorState :=
  if d.values.length < d.window_size then
    (false, { d with values := dequeAppend d.window_size d.values value })
  else
    (decide ((value - mean d.values) ^ 2 > d.sensitivity ^ 2 * variance d.values),
      { d with values := dequeAppend d.window_size d.values value })

/-! ## Extended model with non-finite samples

The spec's §7 talks about NaN and ±infinity inputs.  The code performs no
validation whatsoever, so to settle that claim the detector is re-embedded
over an extended value domain with IEEE-754-style special values, with the
arithmetic of `numpy` on them: NaN is absorbing, `inf + (-inf) = NaN`,
every comparison involving NaN is false. -/

/-- A Python float as far as the detector manipulates it: a finite value
(idealised as a rational), one of the two infinities, or NaN. -/
inductive PyVal where
  | fin : ℚ → PyVal
  | pinf : PyVal
  | ninf : PyVal
  | nan : PyVal
deriving Repr, DecidableEq

/-- IEEE addition on `PyVal`. -/
def padd : PyVal → PyVal → PyVal
  | .nan, _ => .nan
  | _, .nan => .nan
  | .fin a, .fin b => .fin (a + b)
  | .fin _, .pinf => .pinf
  | .pinf, .fin _ => .pinf
  | .fin _, .ninf => .ninf
  | .ninf, .fin _ => .ninf
  | .pinf, .pinf => .pinf
  | .ninf, .ninf => .ninf
  | .pinf, .ninf => .nan
  | .ninf, .pinf => .nan

/-- IEEE subtraction on `PyVal`. -/
def psub : PyVal → PyVal → PyVal
  | .nan, _ => .nan
  | _, .nan => .nan
  | .fin a, .fin b => .fin (a - b)
  | .fin _, .pinf => .ninf
  | .pinf, .fin _ => .pinf
  | .fin _, .ninf => .pinf
  | .ninf, .fin _ => .ninf
  | .pinf, .pinf => .nan
  | .ninf, .ninf => .nan
  | .pinf, .ninf => .pinf
  | .ninf, .pinf => .ninf

/-- IEEE squaring on `PyVal`. -/
def psq : PyVal → PyVal
  | .nan => .nan
  | .fin a => .fin (a ^ 2)
  | .pinf => .pinf
  | .ninf => .pinf

/-- Scaling by a finite rational, IEEE style (`0 * inf = NaN`). -/
def pscale (q : ℚ) : PyVal → PyVal
  | .nan => .nan
  | .fin a => .fin (q * a)
  | .pinf => if q = 0 then .nan else if 0 < q then .pinf else .ninf
  | .ninf => if q = 0 then .nan else if 0 < q then .ninf else .pinf

/-- Division by a list length (`np.mean` divides by it; `np.mean([])` is
NaN). -/
def pdivNat (x : PyVal) (n : ℕ) : PyVal :=
  if n = 0 then .nan
  else match x with
  | .nan => .nan
  | .fin a => .fin (a / n)
  | .pinf => .pinf
  | .ninf => .ninf

/-- Strict greater-than on `PyVal`: any comparison with NaN is false. -/
def pgt : PyVal → PyVal → Bool
  | .nan, _ => false
  | _, .nan => false
  | .fin a, .fin b => decide (b < a)
  | .fin _, .pinf => false
  | .fin _, .ninf => true
  | .pinf, .pinf => false
  | .pinf, _ => true
  | .ninf, _ => false

/-- `np.mean` on extended values: sum (left fold from 0) over length. -/
def pmean (l : List PyVal) : PyVal :=
  pdivNat (l.foldl padd (.fin 0)) l.length

/-- Square of `np.std` on extended values: mean of squared deviations. -/
def pvariance (l : List PyVal) : PyVal :=
  pdivNat ((l.map (fun x => psq (psub x (pmean l)))).foldl padd (.fin 0)) l.length

/-- Detector state over the extended value domain. -/
structure ExtDetectorState where
  window_size : ℕ
  sensitivity : ℚ
  values : List PyVal
deriving Repr, DecidableEq

/-- Embeds `AdaptiveAnomalyDetector.is_anomaly` over the extended domain:
identical control flow to `is_anomaly`; there is no validation of the
incoming value anywhere, so NaN and the infinities flow straight into the
deque and the statistics. -/
def is_anomalyExt (d : ExtDetectorState) (value : PyVal) : Bool × ExtDetectorState :=
  if d.values.length < d.window_size then
    (false, { d with values := dequeAppend d.window_size d.values value })
  else
    let values' := dequeAppend d.window_size d.values value
    (pgt (psq (psub value (pmean values'))) (pscale (d.sensitivity ^ 2) (pvariance values')),
      { d with values := values' })

/-- Justification of the squared decision form: for a nonnegative factor
`s` and a nonnegative radicand `v`, `|d| > s * sqrt v` iff `d^2 > s^2 * v`.
This is the bridge between the source's
`abs(value - avg) > sensitivity * std_dev` and the embedded comparison. -/
theorem abs_gt_mul_sqrt_iff (d s v : ℝ) (hs : 0 ≤ s) (hv : 0 ≤ v) :
    |d| > s * Real.sqrt v ↔ d ^ 2 > s ^ 2 * v := by
  have hsq : (s * Real.sqrt v) ^ 2 = s ^ 2 * v := by
    rw [mul_pow, Real.sq_sqrt hv]
  have hnn : 0 ≤ s * Real.sqrt v := mul_nonneg hs (Real.sqrt_nonneg v)
  constructor
  · intro h
    have := pow_lt_pow_left₀ h hnn (two_ne_zero)
    rwa [hsq, sq_abs] at this
  · intro h
    have h2 : (s * Real.sqrt v) ^ 2 < |d| ^ 2 := by rwa [hsq, sq_abs]
    exact lt_of_pow_lt_pow_left₀ 2 (abs_nonneg d) h2

theorem psub_nan (y : PyVal) : psub .nan y = .nan := by cases y <;> rfl

theorem pgt_nan (y : PyVal) : pgt .nan y = false := by cases y <;> rfl

/-! ## Structural lemmas about the window -/

theorem length_takeLast {α : Type} (w : ℕ) (l : List α) :
    (takeLast w l).length = min l.length w := by
  simp only [takeLast, List.length_drop]
  omega

theorem takeLast_of_le {α : Type} {w : ℕ} {l : List α} (h : l.length ≤ w) :
    takeLast w l = l := by
  simp [takeLast, Nat.sub_eq_zero_of_le h]

theorem takeLast_append_absorb {α : Type} (w : ℕ) (a b : List α) :
    takeLast w (takeLast w a ++ b) = takeLast w (a ++ b) := by
  unfold takeLast
  have h1 : a.drop (a.length - w) ++ b = (a ++ b).drop (a.length - w) := by
    rw [List.drop_append_eq_append_drop, Nat.sub_eq_zero_of_le (Nat.sub_le _ _),
      List.drop_zero]
  rw [h1, List.drop_drop, List.length_drop]
  congr 1
  simp only [List.length_append]
  omega

theorem stepState_eq (d : DetectorState) (v : ℚ) :
    stepState d v = { d with values := dequeAppend d.window_size d.values v } := by
  unfold stepState is_anomaly update_window
  split <;> rfl

theorem is_anomaly_warmup {d : DetectorState} (v : ℚ)
    (h : d.values.length < d.window_size) :
    is_anomaly d v = (false, { d with values := d.values ++ [v] }) := by
  unfold is_anomaly
  rw [if_pos h]
  have : dequeAppend d.window_size d.values v = d.values ++ [v] :=
    takeLast_of_le (by simpa using h)
  rw [this]

theorem dequeAppend_full {d : DetectorState} (v : ℚ) (hw : 1 ≤ d.window_size)
    (hl : d.values.length = d.window_size) :
    dequeAppend d.window_size d.values v = d.values.drop 1 ++ [v] := by
  unfold dequeAppend takeLast
  have h1 : (d.values ++ [v]).length - d.window_size = 1 := by
    simp [List.length_append]; omega
  rw [h1, List.drop_append_eq_append_drop, Nat.sub_eq_zero_of_le (by omega),
    List.drop_zero]

theorem is_anomaly_full {d : DetectorState} (v : ℚ) (hw : 1 ≤ d.window_size)
    (hl : d.values.length = d.window_size) :
    is_anomaly d v =
      (decide ((v - mean (d.values.drop 1 ++ [v])) ^ 2 >
        d.sensitivity ^ 2 * variance (d.values.drop 1 ++ [v])),
       { d with values := d.values.drop 1 ++ [v] }) := by
  unfold is_anomaly update_window
  rw [if_neg (by omega), dequeAppend_full v hw hl]

theorem feedAll_eq (xs : List ℚ) (w : ℕ) (s : ℚ) (ys : List ℚ) (h : ys.length ≤ w) :
    feedAll ⟨w, s, ys⟩ xs = ⟨w, s, takeLast w (ys ++ xs)⟩ := by
  induction xs generalizing ys with
  | nil =>
    simp only [feedAll, List.foldl_nil, List.append_nil]
    rw [takeLast_of_le h]
  | cons x xs ih =>
    have hstep : stepState ⟨w, s, ys⟩ x = ⟨w, s, dequeAppend w ys x⟩ := stepState_eq _ _
    have hlen : (dequeAppend w ys x).length ≤ w := by
      rw [dequeAppend, length_takeLast]; omega
    calc feedAll ⟨w, s, ys⟩ (x :: xs)
        = feedAll ⟨w, s, dequeAppend w ys x⟩ xs := by
          simp only [feedAll, List.foldl_cons, hstep]
      _ = ⟨w, s, takeLast w (dequeAppend w ys x ++ xs)⟩ := ih _ hlen
      _ = ⟨w, s, takeLast w (ys ++ x :: xs)⟩ := by
          rw [dequeAppend, takeLast_append_absorb, List.append_assoc,
            List.singleton_append]

theorem feedAll_init_values (w : ℕ) (s : ℚ) (xs : List ℚ) :
    (feedAll (init w s) xs).values = xs.drop (xs.length - w) := by
  have h := feedAll_eq xs w s [] (by simp)
  simp only [init] at *
  rw [h]
  simp [takeLast]

theorem runOutputs_warmup (xs : List ℚ) (w : ℕ) (s : ℚ) (ys : List ℚ)
    (h : ys.length + xs.length ≤ w) :
    runOutputs ⟨w, s, ys⟩ xs = List.replicate xs.length false := by
  induction xs generalizing ys with
  | nil => rfl
  | cons x xs ih =>
    have hwarm : ys.length < w := by simp at h; omega
    rw [runOutputs, is_anomaly_warmup x hwarm]
    show false :: runOutputs ⟨w, s, ys ++ [x]⟩ xs = _
    rw [ih (ys ++ [x]) (by simp at h ⊢; omega)]
    simp [List.replicate_succ]

/-! ## Statistics lemmas -/

theorem variance_nonneg (l : List ℚ) : 0 ≤ variance l := by
  unfold variance
  apply div_nonneg _ (by positivity)
  apply List.sum_nonneg
  intro x hx
  simp only [List.mem_map] at hx
  obtain ⟨y, _, rfl⟩ := hx
  positivity

theorem mean_replicate {w : ℕ} (hw : 1 ≤ w) (c : ℚ) :
    mean (List.replicate w c) = c := by
  have hw0 : ((w : ℚ)) ≠ 0 := by positivity
  simp only [mean, List.sum_replicate, List.length_replicate, nsmul_eq_mul]
  field_simp

theorem variance_replicate {w : ℕ} (hw : 1 ≤ w) (c : ℚ) :
    variance (List.replicate w c) = 0 := by
  simp [variance, mean_replicate hw, List.map_replicate, List.sum_replicate]

theorem mean_replicate_append (n : ℕ) (c v : ℚ) :
    mean (List.replicate n c ++ [v]) = ((n : ℚ) * c + v) / ((n : ℚ) + 1) := by
  simp only [mean, List.sum_append, List.sum_replicate, List.length_append,
    List.length_replicate, List.sum_cons, List.sum_nil, List.length_cons,
    List.length_nil, nsmul_eq_mul, add_zero]
  push_cast
  ring_nf

theorem variance_replicate_append (n : ℕ) (c v : ℚ) :
    variance (List.replicate n c ++ [v]) =
      ((n : ℚ) * (c - mean (List.replicate n c ++ [v])) ^ 2
        + (v - mean (List.replicate n c ++ [v])) ^ 2) / ((n : ℚ) + 1) := by
  simp only [variance, List.map_append, List.map_replicate, List.sum_append,
    List.sum_replicate, List.map_cons, List.map_nil, List.sum_cons, List.sum_nil,
    List.length_append, List.length_replicate, List.length_cons, List.length_nil,
    nsmul_eq_mul, add_zero]
  push_cast
  ring_nf

/-- The decision the code takes on a previously-constant window: feeding
`v ≠ c` into the full window `[c, ..., c]` yields `n` copies of `c` and one
`v` in the statistics (with `n = windowSize - 1`), and the comparison comes
out true exactly when `n > sensitivity^2`. -/
theorem const_window_decision (n : ℕ) (s c v : ℚ) (hs : 0 < s) (hv : v ≠ c) :
    ((v - mean (List.replicate n c ++ [v])) ^ 2
        > s ^ 2 * variance (List.replicate n c ++ [v]))
      ↔ (s ^ 2 < (n : ℚ)) := by
  have hn1 : (0 : ℚ) < (n : ℚ) + 1 := by positivity
  have hd : v - c ≠ 0 := sub_ne_zero.mpr hv
  have hd2 : 0 < (v - c) ^ 2 := by
    rcases lt_or_gt_of_ne hd with h | h <;> nlinarith
  have hμ : mean (List.replicate n c ++ [v]) = c + (v - c) / ((n : ℚ) + 1) := by
    rw [mean_replicate_append]
    field_simp
    ring
  have hvar : variance (List.replicate n c ++ [v]) =
      (v - c) ^ 2 * (n : ℚ) / ((n : ℚ) + 1) ^ 2 := by
    rw [variance_replicate_append, hμ]
    field_simp
    ring
  have hdev : (v - mean (List.replicate n c ++ [v])) ^ 2 =
      (v - c) ^ 2 * (n : ℚ) ^ 2 / ((n : ℚ) + 1) ^ 2 := by
    rw [hμ]
    field_simp
    ring
  rw [hdev, hvar, gt_iff_lt, ← sub_pos]
  have key : (v - c) ^ 2 * (n : ℚ) ^ 2 / ((n : ℚ) + 1) ^ 2
      - s ^ 2 * ((v - c) ^ 2 * (n : ℚ) / ((n : ℚ) + 1) ^ 2)
      = (v - c) ^ 2 * (n : ℚ) / ((n : ℚ) + 1) ^ 2 * ((n : ℚ) - s ^ 2) := by
    field_simp
    ring
  rw [key]
  constructor
  · intro h
    by_contra hle
    push_neg at hle
    have hA : 0 ≤ (v - c) ^ 2 * (n : ℚ) / ((n : ℚ) + 1) ^ 2 := by positivity
    nlinarith
  · intro h
    have hn0 : (0 : ℚ) < (n : ℚ) := lt_trans (by positivity) h
    have hA : 0 < (v - c) ^ 2 * (n : ℚ) / ((n : ℚ) + 1) ^ 2 :=
      div_pos (mul_pos hd2 hn0) (by positivity)
    exact mul_pos hA (sub_pos.mpr h)

/-- List form of the Cauchy-Schwarz bound: the square of a sum is at most
the length times the sum of squares. -/
theorem sq_sum_le_length_mul_sum_sq (m : List ℚ) :
    m.sum ^ 2 ≤ (m.length : ℚ) * (m.map (fun y => y ^ 2)).sum := by
  induction m with
  | nil => simp
  | cons a t ih =>
    rcases eq_or_ne t [] with rfl | hne
    · simp
    · have hn1 : (1 : ℚ) ≤ (t.length : ℚ) := by
        exact_mod_cast List.length_pos.mpr hne
      simp only [List.sum_cons, List.map_cons, List.length_cons]
      push_cast
      have key : (t.length : ℚ) * (((t.length : ℚ) + 1) * (a ^ 2 + (t.map (fun y => y ^ 2)).sum)
            - (a + t.sum) ^ 2)
          = ((t.length : ℚ) * a - t.sum) ^ 2
            + ((t.length : ℚ) + 1) * ((t.length : ℚ) * (t.map (fun y => y ^ 2)).sum
              - t.sum ^ 2) := by
        ring
      have hpos : 0 ≤ ((t.length : ℚ) * a - t.sum) ^ 2
          + ((t.length : ℚ) + 1) * ((t.length : ℚ) * (t.map (fun y => y ^ 2)).sum
            - t.sum ^ 2) := by
        have h1 : 0 ≤ ((t.length : ℚ) * a - t.sum) ^ 2 := sq_nonneg _
        have h2 : 0 ≤ (t.length : ℚ) * (t.map (fun y => y ^ 2)).sum - t.sum ^ 2 := by
          linarith [ih]
        nlinarith
      nlinarith [key, hpos, hn1]

theorem sum_map_sub_const (l : List ℚ) (q : ℚ) :
    (l.map (fun y => y - q)).sum = l.sum - (l.length : ℚ) * q := by
  induction l with
  | nil => simp
  | cons a t ih =>
    simp only [List.map_cons, List.sum_cons, List.length_cons, ih]
    push_cast
    ring

/-- Every element of a list is within `sqrt (n - 1)` population standard
deviations of the mean, in squared form: the squared deviation of any
element is at most `(length - 1) * variance`. -/
theorem sq_dev_le_length_sub_one_mul_variance (l : List ℚ) (x : ℚ) (hx : x ∈ l) :
    (x - mean l) ^ 2 ≤ ((l.length : ℚ) - 1) * variance l := by
  obtain ⟨u, t, rfl⟩ := List.append_of_mem hx
  set μ := mean (u ++ x :: t) with hμdef
  have hlen : (u ++ x :: t).length = u.length + t.length + 1 := by
    simp [List.length_append]; omega
  have hn0 : (0 : ℚ) < ((u ++ x :: t).length : ℚ) := by
    rw [hlen]; positivity
  -- the deviations sum to zero
  have hdevsum : ((u ++ x :: t).map (fun y => y - μ)).sum = 0 := by
    rw [sum_map_sub_const, hμdef, mean]
    field_simp
  -- split the deviation sum and the squared-deviation sum at the element x
  have hsplit : ((u ++ x :: t).map (fun y => y - μ)).sum =
      (u.map (fun y => y - μ)).sum + ((x - μ) + (t.map (fun y => y - μ)).sum) := by
    simp [List.map_append, List.sum_append]
  have hqsplit : ((u ++ x :: t).map (fun y => (y - μ) ^ 2)).sum =
      (u.map (fun y => (y - μ) ^ 2)).sum + ((x - μ) ^ 2
        + (t.map (fun y => (y - μ) ^ 2)).sum) := by
    simp [List.map_append, List.sum_append]
  set Su := (u.map (fun y => y - μ)).sum
  set St := (t.map (fun y => y - μ)).sum
  set Qu := (u.map (fun y => (y - μ) ^ 2)).sum
  set Qt := (t.map (fun y => (y - μ) ^ 2)).sum
  have hrest : Su + St = -(x - μ) := by
    rw [hsplit] at hdevsum
    linarith
  -- Cauchy-Schwarz on the remaining deviations
  have hcs : (Su + St) ^ 2 ≤
      (((u.map (fun y => y - μ) ++ t.map (fun y => y - μ)).length : ℚ)) * (Qu + Qt) := by
    have h := sq_sum_le_length_mul_sum_sq (u.map (fun y => y - μ) ++ t.map (fun y => y - μ))
    simpa [List.sum_append, List.map_append, List.map_map, Function.comp, Su, St, Qu, Qt]
      using h
  have hcslen : ((u.map (fun y => y - μ) ++ t.map (fun y => y - μ)).length : ℚ)
      = ((u ++ x :: t).length : ℚ) - 1 := by
    simp only [List.length_append, List.length_map, hlen]
    push_cast
    ring
  have hvar : ((u ++ x :: t).length : ℚ) * variance (u ++ x :: t)
      = Qu + ((x - μ) ^ 2 + Qt) := by
    have hne : (((u ++ x :: t).length : ℚ)) ≠ 0 := ne_of_gt hn0
    unfold variance
    rw [← hμdef, hqsplit, mul_comm, div_mul_cancel₀ _ hne]
  have hQnn : 0 ≤ Qu + Qt := by
    have h1 : 0 ≤ Qu := by
      apply List.sum_nonneg; intro y hy
      simp only [List.mem_map] at hy
      obtain ⟨z, _, rfl⟩ := hy
      positivity
    have h2 : 0 ≤ Qt := by
      apply List.sum_nonneg; intro y hy
      simp only [List.mem_map] at hy
      obtain ⟨z, _, rfl⟩ := hy
      positivity
    linarith
  rw [hcslen, hrest] at hcs
  -- now: (x - μ)^2 ≤ (n - 1) * (n * var - (x - μ)^2), conclude by dividing by n
  set n := ((u ++ x :: t).length : ℚ)
  set D := (x - μ) ^ 2
  have hD : D ≤ (n - 1) * (Qu + Qt) := by
    have : (-(x - μ)) ^ 2 = D := by ring
    rwa [this] at hcs
  have hn1 : (1 : ℚ) ≤ n := by
    rw [hlen] at *
    push_cast at *
    linarith [Nat.cast_nonneg (α := ℚ) u.length, Nat.cast_nonneg (α := ℚ) t.length]
  have hvar' : Qu + Qt = n * variance (u ++ x :: t) - D := by
    have : D = (x - μ) ^ 2 := rfl
    linarith [hvar]
  rw [hvar'] at hD
  have hVnn : 0 ≤ variance (u ++ x :: t) := variance_nonneg _
  -- D + (n-1) D ≤ (n-1) n V, so n D ≤ n (n-1) V, so D ≤ (n-1) V
  have hmul : n * D ≤ n * (((n : ℚ) - 1) * variance (u ++ x :: t)) := by nlinarith
  exact le_of_mul_le_mul_left hmul hn0

/-! ## Claim theorems -/

/-- C1 counterexample: with `windowSize = 3`, `sensitivity = 2` and the full
window `[10, 10, 10]`, classifying `50` returns `false` in the code, while
the spec's rule (statistics over the window contents before insertion)
returns `true`: the statistics are NOT computed over the pre-insertion
window. -/
theorem C1_counterexample :
    (is_anomaly { window_size := 3, sensitivity := 2, values := [10, 10, 10] } 50).1 = false
    ∧ (classifySpecPre { window_size := 3, sensitivity := 2, values := [10, 10, 10] } 50).1
      = true := by
  constructor
  · norm_num [is_anomaly, update_window, dequeAppend, takeLast, mean, variance]
  · norm_num [classifySpecPre, mean, variance]

/-- C1 (amended): when the window is full, `is_anomaly` computes mean and
standard deviation over the window contents AFTER the new value is appended
(evicting the oldest element), so the classification depends on the value
being classified through the statistics as well. -/
theorem C1_stats_after_insertion (d : DetectorState) (v : ℚ)
    (hw : 1 ≤ d.window_size) (hl : d.values.length = d.window_size) :
    (is_anomaly d v).1 =
      decide ((v - mean (d.values.drop 1 ++ [v])) ^ 2 >
        d.sensitivity ^ 2 * variance (d.values.drop 1 ++ [v])) := by
  rw [is_anomaly_full v hw hl]

/-- C1 witness: the amended statement at a concrete full window. -/
theorem C1_stats_after_insertion_witness :
    (is_anomaly { window_size := 1, sensitivity := 1, values := [0] } 3).1 =
      decide ((3 - mean (([0] : List ℚ).drop 1 ++ [3])) ^ 2 >
        (1 : ℚ) ^ 2 * variance (([0] : List ℚ).drop 1 ++ [3])) :=
  C1_stats_after_insertion _ 3 (by norm_num) (by norm_num)

/-- C2 counterexample: the claimed output sequence
`false, false, false, false, true` for inputs `10, 10, 10, 10, 50` at
`windowSize = 3`, `sensitivity = 2` is not what the code produces. -/
theorem C2_counterexample :
    runOutputs (init 3 2) [10, 10, 10, 10, 50] ≠ [false, false, false, false, true] := by
  norm_num [runOutputs, is_anomaly, init, update_window, dequeAppend, takeLast, mean, variance]

/-- C2 (amended): with `windowSize = 3`, `sensitivity = 2`, the sequence
`10, 10, 10, 10, 50` returns `false` five times — the fifth call includes
`50` in the statistics (window `[10, 10, 50]`, mean `70/3`, variance
`3200/9`), and `(50 - 70/3)^2 = 6400/9` does not exceed
`4 * 3200/9 = 12800/9` — and after the fifth call the window contents are
exactly `[10, 10, 50]`, oldest first. -/
theorem C2_scenario :
    runOutputs (init 3 2) [10, 10, 10, 10, 50] = [false, false, false, false, false]
    ∧ (feedAll (init 3 2) [10, 10, 10, 10, 50]).values = [10, 10, 50] := by
  constructor
  · norm_num [runOutputs, is_anomaly, init, update_window, dequeAppend, takeLast, mean,
      variance]
  · norm_num [feedAll, stepState, is_anomaly, init, update_window, dequeAppend, takeLast,
      mean, variance]

/-- C3 counterexample: `windowSize = 3`, `sensitivity = 2`, first three
values all `10`; the next call with `50 ≠ 10` returns `false`, not `true`
(the appended `50` inflates the standard deviation enough that
`sensitivity = 2` exceeds the attainable deviation ratio). -/
theorem C3_counterexample :
    (is_anomaly (feedAll (init 3 2) [10, 10, 10]) 50).1 = false := by
  norm_num [feedAll, stepState, is_anomaly, init, update_window, dequeAppend, takeLast,
    mean, variance]

/-- C3 (amended): after `windowSize` values all equal to `c`, a call with
value `c` returns `false`; a call with `v ≠ c` returns `true` exactly when
`sensitivity^2 < windowSize - 1` (for `windowSize = 1` it always returns
`false`): the statistics include the new value, so zero variance of the
prior window does not make every deviating value anomalous. -/
theorem C3_zero_variance_threshold (w : ℕ) (s c v : ℚ)
    (hw : 1 ≤ w) (hs : 0 < s) (hv : v ≠ c) :
    ((is_anomaly (feedAll (init w s) (List.replicate w c)) v).1
        = decide (s ^ 2 < (w : ℚ) - 1))
    ∧ (is_anomaly (feedAll (init w s) (List.replicate w c)) c).1 = false := by
  have hfeed : feedAll (init w s) (List.replicate w c) = ⟨w, s, List.replicate w c⟩ := by
    have h := feedAll_eq (List.replicate w c) w s [] (by simp)
    simpa [init, takeLast_of_le (le_of_eq (List.length_replicate w c))] using h
  rw [hfeed]
  have hdrop : (List.replicate w c).drop 1 = List.replicate (w - 1) c :=
    List.drop_replicate c 1 w
  constructor
  · rw [is_anomaly_full v hw (by simp), hdrop]
    have hcast : ((w - 1 : ℕ) : ℚ) = (w : ℚ) - 1 := by
      rw [Nat.cast_sub hw]; simp
    have hiff := const_window_decision (w - 1) s c v hs hv
    rw [hcast] at hiff
    exact decide_eq_decide.mpr hiff
  · rw [is_anomaly_full c hw (by simp), hdrop]
    have hrep : List.replicate (w - 1) c ++ [c] = List.replicate w c := by
      rw [← List.replicate_succ']
      congr 1
      omega
    rw [hrep, mean_replicate hw, variance_replicate hw]
    simp

/-- C3 witness: the amended statement at `windowSize = 3`, `sensitivity = 1`,
`c = 0`, `v = 7` (here `1 < 2`, so the deviating call is flagged). -/
theorem C3_zero_variance_threshold_witness :
    ((is_anomaly (feedAll (init 3 1) (List.replicate 3 0)) 7).1
        = decide ((1 : ℚ) ^ 2 < (3 : ℚ) - 1))
    ∧ (is_anomaly (feedAll (init 3 1) (List.replicate 3 0)) 0).1 = false :=
  C3_zero_variance_threshold 3 1 0 7 (by norm_num) (by norm_num) (by norm_num)

/-- C4 counterexample: with `windowSize = 3`, `sensitivity = 1`, the third
(`windowSize`-th) call returns `false` even for the wildly divergent value
`100` fed after `0, 0` — that call is still in warm-up, because the window
then holds only two values — whereas the fourth call is the first that can
return `true`. -/
theorem C4_counterexample :
    runOutputs (init 3 1) [0, 0, 100] = [false, false, false]
    ∧ runOutputs (init 3 1) [0, 0, 0, 100] = [false, false, false, true] := by
  constructor <;>
    norm_num [runOutputs, is_anomaly, init, update_window, dequeAppend, takeLast, mean,
      variance]

/-- C4 (amended): for every configuration, the first `windowSize` calls all
return `false` (the `windowSize`-th call still finds the window below
capacity and takes the warm-up branch); the `windowSize + 1`-th call is the
first whose result can be `true`. -/
theorem C4_first_window_calls_false (w : ℕ) (s : ℚ) (inputs : List ℚ)
    (h : inputs.length ≤ w) :
    runOutputs (init w s) inputs = List.replicate inputs.length false :=
  runOutputs_warmup inputs w s [] (by simpa using h)

/-- C4 witness: the amended statement at a concrete warm-up run. -/
theorem C4_first_window_calls_false_witness :
    runOutputs (init 2 5) [1, 1000000] = List.replicate 2 false :=
  C4_first_window_calls_false 2 5 [1, 1000000] (by norm_num)

/-- C5 counterexample: classifying NaN on a fresh detector does not fail
and does not leave the window unchanged: it returns the ordinary result
`False` and appends NaN to the window.  There is no `InvalidSample` and no
finiteness check anywhere in `is_anomaly`. -/
theorem C5_counterexample :
    is_anomalyExt { window_size := 3, sensitivity := 2, values := [] } PyVal.nan
      = (false, { window_size := 3, sensitivity := 2, values := [PyVal.nan] }) := by
  rfl

/-- C5 (amended): the code performs no validation of the sample: every call
— with any value, finite or not — appends the value to the window (mutating
it), and a NaN sample is classified as an ordinary non-anomaly (`False`) in
every state, because every comparison against the NaN-contaminated
statistics is false. -/
theorem C5_no_validation_mutation :
    (∀ (d : ExtDetectorState) (v : PyVal),
        (is_anomalyExt d v).2.values = dequeAppend d.window_size d.values v)
    ∧ (∀ d : ExtDetectorState, (is_anomalyExt d PyVal.nan).1 = false) := by
  constructor
  · intro d v
    unfold is_anomalyExt
    split <;> rfl
  · intro d
    unfold is_anomalyExt
    split
    · rfl
    · show pgt (psq (psub PyVal.nan _)) _ = false
      rw [psub_nan]
      exact pgt_nan _

/-- C6 counterexample: constructing with `windowSize = 0` and
`sensitivity = -1` — both invalid per the claim — succeeds and produces a
detector object; no `InvalidConfiguration` is raised (none exists in the
code). -/
theorem C6_counterexample :
    initDetector 0 (-1) = some { window_size := 0, sensitivity := -1, values := [] } := by
  rfl

/-- C6 (amended): construction performs no validation: for every
`windowSize ≥ 0` (including `0`) and every `sensitivity` (including zero and
negative values) it succeeds, producing a detector with the given parameters
and an empty window; only a negative `windowSize` fails, and then with the
deque library's `ValueError`, not with `InvalidConfiguration`. -/
theorem C6_no_config_validation (w : ℤ) (s : ℚ) (h : 0 ≤ w) :
    initDetector w s = some { window_size := w.toNat, sensitivity := s, values := [] } := by
  rw [initDetector, if_neg (by omega)]

/-- C6 witness: the amended statement at `windowSize = 5`,
`sensitivity = -2`. -/
theorem C6_no_config_validation_witness :
    initDetector 5 (-2) = some { window_size := 5, sensitivity := -2, values := [] } :=
  C6_no_config_validation 5 (-2) (by norm_num)

/-- C7 (confirmed): whenever the window holds fewer than `windowSize`
values, `is_anomaly` appends the value to the window and returns `False`
unconditionally, whatever the value is. -/
theorem C7_warmup_append_false (d : DetectorState) (v : ℚ)
    (h : d.values.length < d.window_size) :
    is_anomaly d v = (false, { d with values := d.values ++ [v] }) :=
  is_anomaly_warmup v h

/-- C7 witness: a wildly divergent first value is still classified
`false` and appended. -/
theorem C7_warmup_append_false_witness :
    is_anomaly (init 2 1) 999999 =
      (false, { window_size := 2, sensitivity := 1, values := [999999] }) :=
  C7_warmup_append_false (init 2 1) 999999 (by norm_num [init])

/-- C8 (confirmed): starting from a fresh detector with `windowSize = w ≥ 1`,
after feeding any input sequence the window holds exactly the last `w`
submitted values, oldest first (`drop (n - w)` of the inputs), its length
never exceeds `w`, and every insertion into a full window evicts exactly the
oldest element. -/
theorem C8_window_sliding (w : ℕ) (s : ℚ) (hw : 1 ≤ w) :
    (∀ inputs : List ℚ,
        (feedAll (init w s) inputs).values = inputs.drop (inputs.length - w))
    ∧ (∀ inputs : List ℚ, (feedAll (init w s) inputs).values.length ≤ w)
    ∧ (∀ (d : DetectorState) (v : ℚ), d.window_size = w → d.values.length = w →
        (is_anomaly d v).2.values = d.values.drop 1 ++ [v]) := by
  refine ⟨fun inputs => feedAll_init_values w s inputs, fun inputs => ?_,
    fun d v hdw hdl => ?_⟩
  · rw [feedAll_init_values w s inputs]
    simp only [List.length_drop]
    omega
  · rw [is_anomaly_full v (by omega) (by omega)]

/-- C8 witness: three values through a window of size two keep the last
two. -/
theorem C8_window_sliding_witness :
    (feedAll (init 2 1) [1, 2, 3]).values = [2, 3] := by
  have h := (C8_window_sliding 2 1 (by norm_num)).1 [1, 2, 3]
  simpa using h

/-- C9 (confirmed, implicit): because the statistics include the value
being classified, no element of a window of size `w` can deviate from the
mean by more than `sqrt (w - 1)` population standard deviations; hence for
`windowSize ≥ 2` and `sensitivity ≥ sqrt (windowSize - 1)` (stated in
squared form: `sensitivity ≥ 0` and `windowSize - 1 ≤ sensitivity^2`) every
full-window call returns `false` — detection is impossible. -/
theorem C9_sensitivity_saturation (d : DetectorState) (v : ℚ)
    (hw : 2 ≤ d.window_size) (hs : 0 ≤ d.sensitivity)
    (hsat : ((d.window_size : ℚ)) - 1 ≤ d.sensitivity ^ 2)
    (hl : d.values.length = d.window_size) :
    (is_anomaly d v).1 = false := by
  rw [is_anomaly_full v (by omega) hl]
  have hlen : (d.values.drop 1 ++ [v]).length = d.window_size := by
    simp only [List.length_append, List.length_drop, List.length_singleton]
    omega
  have hmem : v ∈ d.values.drop 1 ++ [v] := by simp
  have hdev := sq_dev_le_length_sub_one_mul_variance (d.values.drop 1 ++ [v]) v hmem
  have hvar := variance_nonneg (d.values.drop 1 ++ [v])
  rw [hlen] at hdev
  apply decide_eq_false
  rw [not_lt]
  calc (v - mean (d.values.drop 1 ++ [v])) ^ 2
      ≤ ((d.window_size : ℚ) - 1) * variance (d.values.drop 1 ++ [v]) := hdev
    _ ≤ d.sensitivity ^ 2 * variance (d.values.drop 1 ++ [v]) :=
        mul_le_mul_of_nonneg_right hsat hvar

/-- C9 witness: `windowSize = 2`, `sensitivity = 1 = sqrt (2 - 1)`: even a
huge value against the full window `[0, 5]` is not flagged. -/
theorem C9_sensitivity_saturation_witness :
    (is_anomaly { window_size := 2, sensitivity := 1, values := [0, 5] } 1000000).1
      = false :=
  C9_sensitivity_saturation _ 1000000 (by norm_num) (by norm_num) (by norm_num) (by decide)

/-- C10 (confirmed, implicit): every call grows the window by exactly one
element up to the cap — the resulting length is `min (previous + 1) w` in
both branches and for any value — so after `n` calls on a fresh detector
the window length is exactly `min n w`; in particular it equals `n`
throughout warm-up. -/
theorem C10_per_call_growth (w : ℕ) (s : ℚ) (hw : 1 ≤ w) :
    (∀ (d : DetectorState) (v : ℚ), d.window_size = w →
        (is_anomaly d v).2.values.length = min (d.values.length + 1) w)
    ∧ (∀ inputs : List ℚ, (feedAll (init w s) inputs).values.length = min inputs.length w) := by
  constructor
  · intro d v hdw
    rw [show (is_anomaly d v).2 = stepState d v from rfl, stepState_eq]
    simp only [hdw, dequeAppend, length_takeLast, List.length_append,
      List.length_singleton]
  · intro inputs
    rw [feedAll_init_values w s inputs]
    simp only [List.length_drop]
    omega

/-- C10 witness: a call on a full window of size two keeps the length at
two, i.e. `min (2 + 1) 2`. -/
theorem C10_per_call_growth_witness :
    (is_anomaly { window_size := 2, sensitivity := 1, values := [4, 5] } 6).2.values.length
      = 2 := by
  have h := (C10_per_call_growth 2 1 (by norm_num)).1
    { window_size := 2, sensitivity := 1, values := [4, 5] } 6 rfl
  simpa using h

end AnomalyDetection
